import Mathlib

/-!
Shallow embedding of the budget-allocation core of the repository
(src/lib/helpers/allocation_methods.py together with the entity models in
src/lib/models/).  Python floats are modelled by rationals; `round(x, 2)`
becomes `round2`; a Python exception becomes an `Except` error value.
-/

namespace BudgetAlloc

/-- County record (src/lib/models/county.py). -/
structure County where
  id : ℤ
  name : String
  population : ℤ
  economic_output : ℚ
  project_score : ℤ
  deriving Repr, DecidableEq

/-- `County.gdp_per_capita` property: `economic_output / population`,
0 when the population is 0 (src/lib/models/county.py, lines 43-47). -/
def County.gdp_per_capita (c : County) : ℚ :=
  if c.population = 0 then 0 else c.economic_output / (c.population : ℚ)

/-- Python `round(x, 2)`: round to 2 decimal places. -/
def round2 (x : ℚ) : ℚ := ((round (x * 100) : ℤ) : ℚ) / 100

/-- Python `min` over a non-empty sequence (junk value 0 on `[]`,
unreachable behind the calculator's non-empty invariant). -/
def qmin : List ℚ → ℚ
  | [] => 0
  | x :: xs => xs.foldl min x

/-- Python `max` over a non-empty sequence (junk value 0 on `[]`). -/
def qmax : List ℚ → ℚ
  | [] => 0
  | x :: xs => xs.foldl max x

/-- One element of the lists returned by the allocation methods: the Python
dict with keys `county_id`, `county_name`, `amount`, `percentage`, `method`
and the method-specific keys (`gdp_per_capita`, `project_score`). -/
structure AllocRec where
  county_id : ℤ
  county_name : String
  amount : ℚ
  percentage : ℚ
  method : String
  gdp_per_capita : Option ℚ := none
  project_score : Option ℤ := none
  deriving Repr, DecidableEq

/-- Stable insertion into a list sorted in descending key order: the new
element goes after every element with an equal or larger key. -/
def insertDesc {α β : Type} [LinearOrder β] (key : α → β) (x : α) :
    List α → List α
  | [] => [x]
  | y :: ys => if key x ≤ key y then y :: insertDesc key x ys else x :: y :: ys

/-- Python `list.sort(key=..., reverse=True)`: stable descending sort. -/
def sortDesc {α β : Type} [LinearOrder β] (key : α → β) (l : List α) : List α :=
  l.foldl (fun acc x => insertDesc key x acc) []

/-- Error taxonomy of the system (ValueError / ZeroDivisionError messages in
the source, grouped by the conditions of spec section 7). -/
inductive Err where
  | invalidInput (msg : String)
  | unknownMethod (msg : String)
  | divisionByZero (msg : String)
  | persistenceFailure (msg : String)
  deriving Repr, DecidableEq

/-- The message carried by an error (Python `str(e)`). -/
def Err.message : Err → String
  | .invalidInput m => m
  | .unknownMethod m => m
  | .divisionByZero m => m
  | .persistenceFailure m => m

/-- `AllocationCalculator` state: the two fields set in `__init__`. -/
structure AllocationCalculator where
  budget_amount : ℚ
  counties : List County
  deriving Repr, DecidableEq

/-- `AllocationCalculator.__init__` (allocation_methods.py, lines 12-20):
rejects an empty county list, then a non-positive budget amount. -/
def AllocationCalculator.init (budget_amount : ℚ) (counties : List County) :
    Except Err AllocationCalculator :=
  if counties = [] then
    .error (.invalidInput "Cannot allocate budget to zero counties")
  else if budget_amount ≤ 0 then
    .error (.invalidInput "Budget amount must be greater than zero")
  else
    .ok ⟨budget_amount, counties⟩

/-- `equal_allocation` (allocation_methods.py, lines 22-35). -/
def AllocationCalculator.equal_allocation (c : AllocationCalculator) :
    List AllocRec :=
  let allocation_per_county := c.budget_amount / (c.counties.length : ℚ)
  c.counties.map fun county =>
    { county_id := county.id
      county_name := county.name
      amount := round2 allocation_per_county
      percentage := round2 (allocation_per_county / c.budget_amount * 100)
      method := "equal" }

/-- The minimum GDP-per-capita across a county list
(`min_gdp` in allocation_methods.py, line 48). -/
def min_gdp (cs : List County) : ℚ := qmin (cs.map County.gdp_per_capita)

/-- The maximum GDP-per-capita across a county list
(`max_gdp` in allocation_methods.py, line 49). -/
def max_gdp (cs : List County) : ℚ := qmax (cs.map County.gdp_per_capita)

/-- A county's weight `max_gdp - gdp_per_capita + min_gdp`
(`inverse_weight` in allocation_methods.py, line 55). -/
def County.inverse_weight (cs : List County) (c : County) : ℚ :=
  max_gdp cs - c.gdp_per_capita + min_gdp cs

/-- The sum of the weights (`total_inverse_weight`, lines 52-57). -/
def total_inverse_weight (cs : List County) : ℚ :=
  (cs.map (County.inverse_weight cs)).sum

/-- The record built for one county in the GDP loop
(allocation_methods.py, lines 61-71). -/
def AllocationCalculator.gdp_record (c : AllocationCalculator)
    (county : County) : AllocRec :=
  let allocation_amount :=
    county.inverse_weight c.counties / total_inverse_weight c.counties *
      c.budget_amount
  { county_id := county.id
    county_name := county.name
    amount := round2 allocation_amount
    percentage := round2 (allocation_amount / c.budget_amount * 100)
    gdp_per_capita := some (round2 county.gdp_per_capita)
    method := "gdp_per_capita" }

/-- `gdp_per_capita_allocation` (allocation_methods.py, lines 37-75): build
a record per county, then sort by amount, descending, with Python's stable
sort.  A zero weight sum makes the Python division raise
`ZeroDivisionError`; the embedding returns that error explicitly. -/
def AllocationCalculator.gdp_per_capita_allocation (c : AllocationCalculator) :
    Except Err (List AllocRec) :=
  if total_inverse_weight c.counties = 0 then
    .error (.divisionByZero "float division by zero")
  else
    .ok (sortDesc (fun r => r.amount) (c.counties.map c.gdp_record))

/-- The sum of the project scores (`total_project_score`,
allocation_methods.py, line 86). -/
def total_project_score (cs : List County) : ℤ :=
  (cs.map County.project_score).sum

/-- The record built for one county in the project loop
(allocation_methods.py, lines 92-103). -/
def AllocationCalculator.project_record (c : AllocationCalculator)
    (county : County) : AllocRec :=
  let allocation_amount :=
    ((county.project_score : ℚ) / ((total_project_score c.counties : ℤ) : ℚ)) *
      c.budget_amount
  { county_id := county.id
    county_name := county.name
    amount := round2 allocation_amount
    percentage := round2 (allocation_amount / c.budget_amount * 100)
    project_score := some county.project_score
    method := "project_based" }

/-- `project_based_allocation` (allocation_methods.py, lines 77-107):
defends against a zero score sum, builds a record per county, sorts by
project score, descending, stable. -/
def AllocationCalculator.project_based_allocation (c : AllocationCalculator) :
    Except Err (List AllocRec) :=
  if total_project_score c.counties = 0 then
    .error (.divisionByZero "Total project score cannot be zero")
  else
    .ok (sortDesc (fun r => r.project_score.getD 0)
      (c.counties.map c.project_record))

/-- The dict returned by `get_allocation_summary`
(allocation_methods.py, lines 130-137). -/
structure Summary where
  method : String
  total_budget : ℚ
  total_allocated : ℚ
  remaining : ℚ
  num_counties : ℕ
  allocations : List AllocRec
  deriving Repr, DecidableEq

/-- `get_allocation_summary` (allocation_methods.py, lines 109-137):
dispatch on the method name, then sum the amounts and round. -/
def AllocationCalculator.get_allocation_summary (c : AllocationCalculator)
    (method : String) : Except Err Summary :=
  let allocsE : Except Err (List AllocRec) :=
    if method = "equal" then .ok c.equal_allocation
    else if method = "gdp_per_capita" then c.gdp_per_capita_allocation
    else if method = "project_based" then c.project_based_allocation
    else .error (.unknownMethod ("Unknown allocation method: " ++ method))
  allocsE.map fun allocations =>
    let total_allocated := (allocations.map AllocRec.amount).sum
    { method := method
      total_budget := c.budget_amount
      total_allocated := round2 total_allocated
      remaining := round2 (c.budget_amount - total_allocated)
      num_counties := c.counties.length
      allocations := allocations }

/-- The dict returned by `compare_allocation_methods`
(allocation_methods.py, lines 207-222). -/
structure Comparison where
  budget_amount : ℚ
  num_counties : ℕ
  methods : List (String × Except String Summary)
  deriving Repr

/-- `compare_allocation_methods` (allocation_methods.py, lines 196-222):
the calculator is constructed before the per-method try/except, so its
`ValueError` propagates; inside the loop each method's failure is recorded
as its message under that method's key. -/
def compare_allocation_methods (budget_amount : ℚ) (counties : List County) :
    Except Err Comparison :=
  (AllocationCalculator.init budget_amount counties).map fun calculator =>
    { budget_amount := budget_amount
      num_counties := counties.length
      methods :=
        ["equal", "gdp_per_capita", "project_based"].map fun m =>
          (m, (calculator.get_allocation_summary m).mapError Err.message) }

/-! ### Facts about `round2` -/

theorem round_le_round {x y : ℚ} (h : x ≤ y) : round x ≤ round y := by
  rw [round_eq, round_eq]
  exact Int.floor_le_floor (by linarith)

theorem round2_mono {x y : ℚ} (h : x ≤ y) : round2 x ≤ round2 y := by
  unfold round2
  have : round (x * 100) ≤ round (y * 100) := round_le_round (by linarith)
  exact div_le_div_of_nonneg_right (by exact_mod_cast this)
    (by norm_num : (0 : ℚ) ≤ 100)

theorem abs_round2_sub (x : ℚ) : |round2 x - x| ≤ 1 / 200 := by
  have h := abs_sub_round (x * 100)
  have heq : round2 x - x = -((x * 100 - ((round (x * 100) : ℤ) : ℚ)) / 100) := by
    unfold round2; ring
  rw [heq, abs_neg, abs_div, abs_of_pos (show (0:ℚ) < 100 by norm_num)]
  linarith

/-- A rational that is a whole number of cents. -/
def IsCent (x : ℚ) : Prop := ∃ k : ℤ, x = (k : ℚ) / 100

theorem isCent_round2 (x : ℚ) : IsCent (round2 x) := ⟨round (x * 100), rfl⟩

theorem round2_eq_self {x : ℚ} (h : IsCent x) : round2 x = x := by
  obtain ⟨k, rfl⟩ := h
  unfold round2
  have : (k : ℚ) / 100 * 100 = (k : ℚ) := by field_simp
  rw [this, round_intCast]

theorem isCent_add {x y : ℚ} (hx : IsCent x) (hy : IsCent y) : IsCent (x + y) := by
  obtain ⟨k, rfl⟩ := hx
  obtain ⟨m, rfl⟩ := hy
  exact ⟨k + m, by push_cast; ring⟩

theorem isCent_sum {l : List ℚ} (h : ∀ x ∈ l, IsCent x) : IsCent l.sum := by
  induction l with
  | nil => exact ⟨0, by simp⟩
  | cons x xs ih =>
    rw [List.sum_cons]
    exact isCent_add (h x (by simp)) (ih fun y hy => h y (by simp [hy]))

/-! ### Facts about `qmin` and `qmax` -/

theorem foldl_min_le_init {l : List ℚ} : ∀ a : ℚ, l.foldl min a ≤ a := by
  induction l with
  | nil => intro a; simp
  | cons x xs ih =>
    intro a
    exact le_trans (ih (min a x)) (min_le_left _ _)

theorem foldl_min_le_mem {l : List ℚ} {b : ℚ} (hb : b ∈ l) :
    ∀ a : ℚ, l.foldl min a ≤ b := by
  induction l with
  | nil => cases hb
  | cons x xs ih =>
    intro a
    rcases List.mem_cons.mp hb with rfl | hb2
    · exact le_trans (foldl_min_le_init (min a b)) (min_le_right _ _)
    · exact ih hb2 (min a x)

theorem foldl_min_mem {l : List ℚ} : ∀ a : ℚ, l.foldl min a ∈ a :: l := by
  induction l with
  | nil => intro a; simp
  | cons x xs ih =>
    intro a
    have h := ih (min a x)
    rcases List.mem_cons.mp h with h1 | h1
    · rcases min_choice a x with hc | hc
      · rw [List.foldl_cons, h1, hc]; simp
      · rw [List.foldl_cons, h1, hc]; simp
    · simp [List.foldl_cons, List.mem_cons.mpr (Or.inr h1)]

theorem qmin_le {l : List ℚ} {y : ℚ} (hy : y ∈ l) : qmin l ≤ y := by
  cases l with
  | nil => cases hy
  | cons x xs =>
    rcases List.mem_cons.mp hy with rfl | hy2
    · exact foldl_min_le_init y
    · exact foldl_min_le_mem hy2 x

theorem qmin_mem {l : List ℚ} (h : l ≠ []) : qmin l ∈ l := by
  cases l with
  | nil => exact absurd rfl h
  | cons x xs => exact foldl_min_mem x

theorem foldl_max_init_le {l : List ℚ} : ∀ a : ℚ, a ≤ l.foldl max a := by
  induction l with
  | nil => intro a; simp
  | cons x xs ih =>
    intro a
    exact le_trans (le_max_left _ _) (ih (max a x))

theorem foldl_max_mem_le {l : List ℚ} {b : ℚ} (hb : b ∈ l) :
    ∀ a : ℚ, b ≤ l.foldl max a := by
  induction l with
  | nil => cases hb
  | cons x xs ih =>
    intro a
    rcases List.mem_cons.mp hb with rfl | hb2
    · exact le_trans (le_max_right _ _) (foldl_max_init_le (max a b))
    · exact ih hb2 (max a x)

theorem foldl_max_mem {l : List ℚ} : ∀ a : ℚ, l.foldl max a ∈ a :: l := by
  induction l with
  | nil => intro a; simp
  | cons x xs ih =>
    intro a
    have h := ih (max a x)
    rcases List.mem_cons.mp h with h1 | h1
    · rcases max_choice a x with hc | hc
      · rw [List.foldl_cons, h1, hc]; simp
      · rw [List.foldl_cons, h1, hc]; simp
    · simp [List.foldl_cons, List.mem_cons.mpr (Or.inr h1)]

theorem le_qmax {l : List ℚ} {y : ℚ} (hy : y ∈ l) : y ≤ qmax l := by
  cases l with
  | nil => cases hy
  | cons x xs =>
    rcases List.mem_cons.mp hy with rfl | hy2
    · exact foldl_max_init_le y
    · exact foldl_max_mem_le hy2 x

theorem qmax_mem {l : List ℚ} (h : l ≠ []) : qmax l ∈ l := by
  cases l with
  | nil => exact absurd rfl h
  | cons x xs => exact foldl_max_mem x

/-! ### Facts about the stable descending sort -/

section SortDesc

variable {α β : Type} [LinearOrder β] (key : α → β)

/-- Sorted in descending order of key. -/
def SortedDescBy (key : α → β) (l : List α) : Prop :=
  l.Pairwise fun a b => key b ≤ key a

theorem insertDesc_perm (x : α) (l : List α) :
    (insertDesc key x l).Perm (x :: l) := by
  induction l with
  | nil => exact List.Perm.refl _
  | cons y ys ih =>
    unfold insertDesc
    by_cases h : key x ≤ key y
    · simp only [if_pos h]
      exact (ih.cons y).trans (List.Perm.swap x y ys)
    · simp only [if_neg h]
      exact List.Perm.refl _

theorem mem_insertDesc {x z : α} {l : List α} :
    z ∈ insertDesc key x l ↔ z = x ∨ z ∈ l := by
  rw [(insertDesc_perm key x l).mem_iff, List.mem_cons]

theorem sortedDescBy_insertDesc {x : α} {l : List α}
    (h : SortedDescBy key l) : SortedDescBy key (insertDesc key x l) := by
  induction l with
  | nil => exact List.pairwise_singleton _ _
  | cons y ys ih =>
    rcases List.pairwise_cons.mp h with ⟨hy, hys⟩
    unfold insertDesc
    by_cases hxy : key x ≤ key y
    · simp only [if_pos hxy]
      refine List.pairwise_cons.mpr ⟨?_, ih hys⟩
      intro z hz
      rcases (mem_insertDesc key).mp hz with rfl | hz2
      · exact hxy
      · exact hy z hz2
    · simp only [if_neg hxy]
      push_neg at hxy
      refine List.pairwise_cons.mpr ⟨?_, h⟩
      intro z hz
      rcases List.mem_cons.mp hz with rfl | hz2
      · exact le_of_lt hxy
      · exact le_trans (hy z hz2) (le_of_lt hxy)

theorem filter_insertDesc (v : β) {x : α} {l : List α}
    (h : SortedDescBy key l) :
    (insertDesc key x l).filter (fun a => decide (key a = v))
      = l.filter (fun a => decide (key a = v))
        ++ if key x = v then [x] else [] := by
  induction l with
  | nil =>
    by_cases hv : key x = v
    · simp [insertDesc, hv]
    · simp [insertDesc, hv]
  | cons y ys ih =>
    rcases List.pairwise_cons.mp h with ⟨hy, hys⟩
    unfold insertDesc
    by_cases hxy : key x ≤ key y
    · simp only [if_pos hxy]
      by_cases hyv : key y = v
      · rw [List.filter_cons_of_pos (by simp [hyv]), ih hys,
          List.filter_cons_of_pos (by simp [hyv]), List.cons_append]
      · rw [List.filter_cons_of_neg (by simp [hyv]), ih hys,
          List.filter_cons_of_neg (by simp [hyv])]
    · simp only [if_neg hxy]
      push_neg at hxy
      by_cases hxv : key x = v
      · have hnone : ∀ z ∈ y :: ys, ¬ key z = v := by
          intro z hz
          rcases List.mem_cons.mp hz with rfl | hz2
          · exact fun hc => absurd (hc ▸ hxv ▸ hxy) (lt_irrefl _)
          · intro hc
            have h1 : key z ≤ key y := hy z hz2
            have h2 : key y < key z := hc ▸ hxv ▸ hxy
            exact absurd (lt_of_le_of_lt h1 h2) (lt_irrefl _)
        have hfilter : (y :: ys).filter (fun a => decide (key a = v)) = [] := by
          rw [List.filter_eq_nil_iff]
          intro z hz
          simpa using hnone z hz
        rw [List.filter_cons_of_pos (by simp [hxv]), hfilter, if_pos hxv]
        simp
      · rw [List.filter_cons_of_neg (by simp [hxv]), if_neg hxv, List.append_nil]

theorem sortDesc_foldl_spec :
    ∀ (l acc : List α), SortedDescBy key acc →
      SortedDescBy key (l.foldl (fun acc x => insertDesc key x acc) acc) ∧
      (l.foldl (fun acc x => insertDesc key x acc) acc).Perm (acc ++ l) ∧
      ∀ v : β, (l.foldl (fun acc x => insertDesc key x acc) acc).filter
          (fun a => decide (key a = v))
        = acc.filter (fun a => decide (key a = v))
          ++ l.filter (fun a => decide (key a = v)) := by
  intro l
  induction l with
  | nil =>
    intro acc hacc
    refine ⟨hacc, by simp, fun v => by simp⟩
  | cons x rest ih =>
    intro acc hacc
    have hins : SortedDescBy key (insertDesc key x acc) :=
      sortedDescBy_insertDesc key hacc
    obtain ⟨hs, hp, hf⟩ := ih (insertDesc key x acc) hins
    refine ⟨hs, ?_, ?_⟩
    · have h1 : (insertDesc key x acc ++ rest).Perm ((x :: acc) ++ rest) :=
        (insertDesc_perm key x acc).append_right rest
      have h2 : ((x :: acc) ++ rest).Perm (acc ++ x :: rest) := by
        simpa using List.perm_middle.symm
      exact (hp.trans h1).trans h2
    · intro v
      rw [List.foldl_cons, hf v, filter_insertDesc key v hacc]
      by_cases hxv : key x = v
      · rw [if_pos hxv, List.filter_cons_of_pos (by simp [hxv])]
        simp
      · rw [if_neg hxv, List.filter_cons_of_neg (by simp [hxv])]
        simp

theorem sortDesc_perm (l : List α) : (sortDesc key l).Perm l := by
  have h := (sortDesc_foldl_spec key l [] (List.Pairwise.nil)).2.1
  simpa [sortDesc] using h

theorem sortDesc_sorted (l : List α) : SortedDescBy key (sortDesc key l) :=
  (sortDesc_foldl_spec key l [] (List.Pairwise.nil)).1

theorem sortDesc_filter (l : List α) (v : β) :
    (sortDesc key l).filter (fun a => decide (key a = v))
      = l.filter (fun a => decide (key a = v)) := by
  have h := (sortDesc_foldl_spec key l [] (List.Pairwise.nil)).2.2 v
  simpa [sortDesc] using h

theorem mem_sortDesc {l : List α} {z : α} : z ∈ sortDesc key l ↔ z ∈ l :=
  (sortDesc_perm key l).mem_iff

end SortDesc

/-! ### Facts about list sums -/

theorem sum_pos_of_mem {l : List ℚ} (h0 : ∀ x ∈ l, 0 ≤ x) {y : ℚ}
    (hy : y ∈ l) (hp : 0 < y) : 0 < l.sum := by
  induction l with
  | nil => cases hy
  | cons x xs ih =>
    rw [List.sum_cons]
    have hxs : (0 : ℚ) ≤ xs.sum :=
      List.sum_nonneg fun z hz => h0 z (by simp [hz])
    rcases List.mem_cons.mp hy with rfl | hy2
    · linarith
    · have := ih (fun z hz => h0 z (by simp [hz])) hy2
      have hx := h0 x (by simp)
      linarith

theorem sum_round2_close :
    ∀ l : List ℚ, |(l.map round2).sum - l.sum| ≤ (l.length : ℚ) / 200 := by
  intro l
  induction l with
  | nil => simp
  | cons x xs ih =>
    have hx := abs_round2_sub x
    have h1 : (((x :: xs).map round2).sum : ℚ) - (x :: xs).sum
        = (round2 x - x) + ((xs.map round2).sum - xs.sum) := by
      simp [List.sum_cons]; ring
    rw [h1]
    calc |(round2 x - x) + ((xs.map round2).sum - xs.sum)|
        ≤ |round2 x - x| + |(xs.map round2).sum - xs.sum| := abs_add _ _
      _ ≤ 1 / 200 + (xs.length : ℚ) / 200 := by linarith
      _ = ((x :: xs).length : ℚ) / 200 := by
          push_cast [List.length_cons]; ring

theorem list_sum_map_div_mul {γ : Type} (f : γ → ℚ) (T b : ℚ) :
    ∀ l : List γ, (l.map fun x => f x / T * b).sum = (l.map f).sum / T * b := by
  intro l
  induction l with
  | nil => simp
  | cons x xs ih =>
    simp only [List.map_cons, List.sum_cons, ih]
    ring

/-! ### Domain lemmas about the GDP-per-capita weighting -/

theorem gdp_nonneg {c : County} (hpop : 0 < c.population)
    (hecon : 0 ≤ c.economic_output) : 0 ≤ c.gdp_per_capita := by
  unfold County.gdp_per_capita
  rw [if_neg (by exact_mod_cast hpop.ne')]
  exact div_nonneg hecon (by exact_mod_cast hpop.le)

theorem gdp_pos {c : County} (hpop : 0 < c.population)
    (hecon : 0 < c.economic_output) : 0 < c.gdp_per_capita := by
  unfold County.gdp_per_capita
  rw [if_neg (by exact_mod_cast hpop.ne')]
  exact div_pos hecon (by exact_mod_cast hpop)

theorem gdp_mem_of_mem {cs : List County} {x : County} (hx : x ∈ cs) :
    x.gdp_per_capita ∈ cs.map County.gdp_per_capita :=
  List.mem_map.mpr ⟨x, hx, rfl⟩

theorem min_gdp_le {cs : List County} {x : County} (hx : x ∈ cs) :
    min_gdp cs ≤ x.gdp_per_capita := qmin_le (gdp_mem_of_mem hx)

theorem le_max_gdp {cs : List County} {x : County} (hx : x ∈ cs) :
    x.gdp_per_capita ≤ max_gdp cs := le_qmax (gdp_mem_of_mem hx)

theorem min_gdp_nonneg {cs : List County} (hne : cs ≠ [])
    (hpop : ∀ x ∈ cs, 0 < x.population)
    (hecon : ∀ x ∈ cs, 0 ≤ x.economic_output) : 0 ≤ min_gdp cs := by
  have hmem : min_gdp cs ∈ cs.map County.gdp_per_capita :=
    qmin_mem (by simpa using hne)
  obtain ⟨x, hx, hxe⟩ := List.mem_map.mp hmem
  rw [← hxe]
  exact gdp_nonneg (hpop x hx) (hecon x hx)

theorem min_gdp_pos {cs : List County} (hne : cs ≠ [])
    (hpop : ∀ x ∈ cs, 0 < x.population)
    (hecon : ∀ x ∈ cs, 0 < x.economic_output) : 0 < min_gdp cs := by
  have hmem : min_gdp cs ∈ cs.map County.gdp_per_capita :=
    qmin_mem (by simpa using hne)
  obtain ⟨x, hx, hxe⟩ := List.mem_map.mp hmem
  rw [← hxe]
  exact gdp_pos (hpop x hx) (hecon x hx)

theorem min_gdp_le_inverse_weight {cs : List County} {x : County}
    (hx : x ∈ cs) : min_gdp cs ≤ x.inverse_weight cs := by
  unfold County.inverse_weight
  have := le_max_gdp hx
  linarith

theorem inverse_weight_nonneg {cs : List County} {x : County} (hx : x ∈ cs)
    (hmin : 0 ≤ min_gdp cs) : 0 ≤ x.inverse_weight cs :=
  le_trans hmin (min_gdp_le_inverse_weight hx)

theorem inverse_weight_antitone {cs : List County} {x y : County}
    (h : y.gdp_per_capita ≤ x.gdp_per_capita) :
    x.inverse_weight cs ≤ y.inverse_weight cs := by
  unfold County.inverse_weight
  linarith

/-- When every county has a strictly positive GDP per capita, the weight sum
is strictly positive. -/
theorem total_inverse_weight_pos_of_pos {cs : List County} (hne : cs ≠ [])
    (hpop : ∀ x ∈ cs, 0 < x.population)
    (hecon : ∀ x ∈ cs, 0 < x.economic_output) :
    0 < total_inverse_weight cs := by
  have hmin : 0 < min_gdp cs := min_gdp_pos hne hpop hecon
  obtain ⟨x, hx⟩ := List.exists_mem_of_ne_nil cs hne
  refine sum_pos_of_mem ?_ (List.mem_map.mpr ⟨x, hx, rfl⟩) ?_
  · intro w hw
    obtain ⟨y, hy, hye⟩ := List.mem_map.mp hw
    rw [← hye]
    exact inverse_weight_nonneg hy hmin.le
  · exact lt_of_lt_of_le hmin (min_gdp_le_inverse_weight hx)

/-- With at least two counties of distinct GDP-per-capita values (and the
County invariants), the weight sum is strictly positive. -/
theorem total_inverse_weight_pos_of_distinct {cs : List County}
    (h2 : 2 ≤ cs.length)
    (hdistinct : (cs.map County.gdp_per_capita).Pairwise (· ≠ ·))
    (hpop : ∀ x ∈ cs, 0 < x.population)
    (hecon : ∀ x ∈ cs, 0 ≤ x.economic_output) :
    0 < total_inverse_weight cs := by
  have hne : cs ≠ [] := by
    intro h; rw [h] at h2; simp at h2
  have hmin0 : 0 ≤ min_gdp cs := min_gdp_nonneg hne hpop hecon
  -- two distinct gdp values force min < max
  have hlt : min_gdp cs < max_gdp cs := by
    rcases cs with _ | ⟨a, _ | ⟨b, rest⟩⟩
    · simp at h2
    · simp at h2
    · have hab : a.gdp_per_capita ≠ b.gdp_per_capita := by
        have := List.pairwise_cons.mp hdistinct
        exact this.1 b.gdp_per_capita (by simp)
      have ha1 : min_gdp (a :: b :: rest) ≤ a.gdp_per_capita :=
        min_gdp_le (by simp)
      have ha2 : a.gdp_per_capita ≤ max_gdp (a :: b :: rest) :=
        le_max_gdp (by simp)
      have hb1 : min_gdp (a :: b :: rest) ≤ b.gdp_per_capita :=
        min_gdp_le (by simp)
      have hb2 : b.gdp_per_capita ≤ max_gdp (a :: b :: rest) :=
        le_qmax (gdp_mem_of_mem (by simp))
      rcases lt_or_eq_of_le (le_trans ha1 ha2) with h | h
      · exact h
      · exfalso
        exact hab (le_antisymm (by linarith) (by linarith))
  -- the county attaining the minimum has weight max_gdp > 0
  have hmem : min_gdp cs ∈ cs.map County.gdp_per_capita :=
    qmin_mem (by simpa using hne)
  obtain ⟨x, hx, hxe⟩ := List.mem_map.mp hmem
  refine sum_pos_of_mem ?_ (List.mem_map.mpr ⟨x, hx, rfl⟩) ?_
  · intro w hw
    obtain ⟨y, hy, hye⟩ := List.mem_map.mp hw
    rw [← hye]
    exact inverse_weight_nonneg hy hmin0
  · unfold County.inverse_weight
    rw [hxe]
    linarith

/-- Unrounded GDP amounts are antitone in GDP per capita; hence so are the
rounded amounts in the records. -/
theorem gdp_record_amount_antitone {c : AllocationCalculator} {x y : County}
    (ht : 0 < total_inverse_weight c.counties) (hb : 0 < c.budget_amount)
    (h : y.gdp_per_capita ≤ x.gdp_per_capita) :
    (c.gdp_record x).amount ≤ (c.gdp_record y).amount := by
  show round2 _ ≤ round2 _
  apply round2_mono
  have hw : x.inverse_weight c.counties ≤ y.inverse_weight c.counties :=
    inverse_weight_antitone h
  have h1 : x.inverse_weight c.counties / total_inverse_weight c.counties
      ≤ y.inverse_weight c.counties / total_inverse_weight c.counties :=
    div_le_div_of_nonneg_right hw ht.le
  exact mul_le_mul_of_nonneg_right h1 hb.le

/-! ### Claim C1 -/

/-- A county satisfying the invariants (positive population, non-negative
economic output) whose GDP per capita is 0. -/
def zeroGdpCounty : County := ⟨1, "A", 1, 0, 5⟩

/-- A valid calculator built on that single county. -/
def zeroGdpCalc : AllocationCalculator := ⟨100, [zeroGdpCounty]⟩

/-- C1 counterexample: the County invariants allow `economic_output = 0`, so
on a valid non-empty county list `min_gdp` can be 0, the weight is 0 (not
positive), the weight sum is 0, and the division fails with a
`ZeroDivisionError`. -/
theorem C1_counterexample :
    0 < zeroGdpCounty.population ∧ 0 ≤ zeroGdpCounty.economic_output ∧
    0 < zeroGdpCalc.budget_amount ∧ zeroGdpCalc.counties.length = 1 ∧
    min_gdp zeroGdpCalc.counties = 0 ∧
    zeroGdpCounty.inverse_weight zeroGdpCalc.counties = 0 ∧
    total_inverse_weight zeroGdpCalc.counties = 0 ∧
    zeroGdpCalc.gdp_per_capita_allocation
      = Except.error (Err.divisionByZero "float division by zero") := by
  have hmin : min_gdp zeroGdpCalc.counties = 0 := by
    norm_num [zeroGdpCalc, zeroGdpCounty, min_gdp, qmin, County.gdp_per_capita]
  have hw : zeroGdpCounty.inverse_weight zeroGdpCalc.counties = 0 := by
    norm_num [zeroGdpCalc, zeroGdpCounty, County.inverse_weight, min_gdp,
      max_gdp, qmin, qmax, County.gdp_per_capita]
  have ht : total_inverse_weight zeroGdpCalc.counties = 0 := by
    norm_num [zeroGdpCalc, zeroGdpCounty, total_inverse_weight,
      County.inverse_weight, min_gdp, max_gdp, qmin, qmax,
      County.gdp_per_capita]
  refine ⟨by norm_num [zeroGdpCounty], by norm_num [zeroGdpCounty],
    by norm_num [zeroGdpCalc], by norm_num [zeroGdpCalc], hmin, hw, ht, ?_⟩
  unfold AllocationCalculator.gdp_per_capita_allocation
  rw [if_pos ht]

/-- C1 amended: under the County invariants every weight is at least
`min_gdp`, which is non-negative; when moreover every county's economic
output is strictly positive (so `min_gdp > 0`), every weight is strictly
positive, the weight sum is strictly positive, and the division never
fails. -/
theorem C1_amended_weight_bounds (c : AllocationCalculator)
    (hne : c.counties ≠ [])
    (hpop : ∀ x ∈ c.counties, 0 < x.population)
    (hecon : ∀ x ∈ c.counties, 0 ≤ x.economic_output) :
    (∀ x ∈ c.counties,
       min_gdp c.counties ≤ x.inverse_weight c.counties ∧
       0 ≤ min_gdp c.counties) ∧
    ((∀ x ∈ c.counties, 0 < x.economic_output) →
       0 < min_gdp c.counties ∧
       (∀ x ∈ c.counties, 0 < x.inverse_weight c.counties) ∧
       0 < total_inverse_weight c.counties ∧
       ∃ l, c.gdp_per_capita_allocation = Except.ok l) := by
  constructor
  · intro x hx
    exact ⟨min_gdp_le_inverse_weight hx, min_gdp_nonneg hne hpop hecon⟩
  · intro hpos
    have hmin : 0 < min_gdp c.counties := min_gdp_pos hne hpop hpos
    have ht : 0 < total_inverse_weight c.counties :=
      total_inverse_weight_pos_of_pos hne hpop hpos
    refine ⟨hmin, ?_, ht, ?_⟩
    · intro x hx
      exact lt_of_lt_of_le hmin (min_gdp_le_inverse_weight hx)
    · refine ⟨sortDesc (fun r => r.amount) (c.counties.map c.gdp_record), ?_⟩
      unfold AllocationCalculator.gdp_per_capita_allocation
      rw [if_neg ht.ne']

/-- C1 witness: the amended claim applied to a concrete two-county
calculator. -/
theorem C1_amended_weight_bounds_witness :
    (∀ x ∈ (⟨100, [⟨1, "A", 2, 6, 5⟩, ⟨2, "B", 3, 3, 4⟩]⟩
        : AllocationCalculator).counties,
       min_gdp [⟨1, "A", 2, 6, 5⟩, ⟨2, "B", 3, 3, 4⟩]
           ≤ x.inverse_weight [⟨1, "A", 2, 6, 5⟩, ⟨2, "B", 3, 3, 4⟩] ∧
       0 ≤ min_gdp [⟨1, "A", 2, 6, 5⟩, ⟨2, "B", 3, 3, 4⟩]) ∧
    ((∀ x ∈ (⟨100, [⟨1, "A", 2, 6, 5⟩, ⟨2, "B", 3, 3, 4⟩]⟩
        : AllocationCalculator).counties, 0 < x.economic_output) →
       0 < min_gdp [⟨1, "A", 2, 6, 5⟩, ⟨2, "B", 3, 3, 4⟩] ∧
       (∀ x ∈ (⟨100, [⟨1, "A", 2, 6, 5⟩, ⟨2, "B", 3, 3, 4⟩]⟩
           : AllocationCalculator).counties,
          0 < x.inverse_weight [⟨1, "A", 2, 6, 5⟩, ⟨2, "B", 3, 3, 4⟩]) ∧
       0 < total_inverse_weight [⟨1, "A", 2, 6, 5⟩, ⟨2, "B", 3, 3, 4⟩] ∧
       ∃ l, (⟨100, [⟨1, "A", 2, 6, 5⟩, ⟨2, "B", 3, 3, 4⟩]⟩
           : AllocationCalculator).gdp_per_capita_allocation
             = Except.ok l) :=
  C1_amended_weight_bounds ⟨100, [⟨1, "A", 2, 6, 5⟩, ⟨2, "B", 3, 3, 4⟩]⟩
    (by simp)
    (by intro x hx; fin_cases hx <;> norm_num)
    (by intro x hx; fin_cases hx <;> norm_num)

/-! ### Claim C6 -/

/-- C6: construction fails with an `InvalidInput` condition exactly when the
county list is empty or the budget amount is not strictly positive, and
succeeds exactly otherwise. -/
theorem C6_init_invalid_iff (b : ℚ) (cs : List County) :
    ((∃ msg, AllocationCalculator.init b cs
        = Except.error (Err.invalidInput msg)) ↔ (cs = [] ∨ b ≤ 0)) ∧
    ((AllocationCalculator.init b cs).isOk = true ↔ (cs ≠ [] ∧ 0 < b)) := by
  unfold AllocationCalculator.init
  by_cases hcs : cs = []
  · simp [hcs, Except.isOk, Except.toBool]
  · by_cases hb : b ≤ 0
    · simp [hcs, hb, Except.isOk, Except.toBool]
    · push_neg at hb
      simp [hcs, hb, not_le.mpr hb, Except.isOk, Except.toBool]

/-! ### Claim C10 -/

/-- C10: `compare_allocation_methods` constructs the calculator before the
per-method try/except, so for an empty county list or non-positive budget it
propagates the constructor's `InvalidInput` error and returns no mapping. -/
theorem C10_compare_propagates_init_error (b : ℚ) (cs : List County)
    (h : cs = [] ∨ b ≤ 0) :
    ∃ msg, compare_allocation_methods b cs
        = Except.error (Err.invalidInput msg) ∧
      AllocationCalculator.init b cs
        = Except.error (Err.invalidInput msg) := by
  have hinit := ((C6_init_invalid_iff b cs).1).mpr h
  obtain ⟨msg, hmsg⟩ := hinit
  exact ⟨msg, by simp [compare_allocation_methods, hmsg, Except.map], hmsg⟩

/-- C10 witness: the empty county list at budget 50. -/
theorem C10_compare_propagates_init_error_witness :
    ∃ msg, compare_allocation_methods 50 ([] : List County)
        = Except.error (Err.invalidInput msg) ∧
      AllocationCalculator.init 50 ([] : List County)
        = Except.error (Err.invalidInput msg) :=
  C10_compare_propagates_init_error 50 [] (Or.inl rfl)

/-! ### Claim C2 -/

/-- C2: for at least 2 counties with pairwise distinct GDP-per-capita values
and a positive budget, `gdp_per_capita_allocation` succeeds; the county with
the lowest GDP per capita gets the largest amount and the county with the
highest GDP per capita the smallest; the result is a permutation of the
per-county records sorted in descending order of amount, and the stable sort
preserves the original relative order on exact amount ties (the filter at
each amount value is unchanged). -/
theorem C2_gdp_extremes_sorted_stable (c : AllocationCalculator)
    (h2 : 2 ≤ c.counties.length)
    (hdistinct : (c.counties.map County.gdp_per_capita).Pairwise (· ≠ ·))
    (hpop : ∀ x ∈ c.counties, 0 < x.population)
    (hecon : ∀ x ∈ c.counties, 0 ≤ x.economic_output)
    (hb : 0 < c.budget_amount) :
    ∃ out, c.gdp_per_capita_allocation = Except.ok out ∧
      out.Perm (c.counties.map c.gdp_record) ∧
      (∀ clow ∈ c.counties,
        (∀ x ∈ c.counties, clow.gdp_per_capita ≤ x.gdp_per_capita) →
        ∀ r ∈ out, r.amount ≤ (c.gdp_record clow).amount) ∧
      (∀ chigh ∈ c.counties,
        (∀ x ∈ c.counties, x.gdp_per_capita ≤ chigh.gdp_per_capita) →
        ∀ r ∈ out, (c.gdp_record chigh).amount ≤ r.amount) ∧
      SortedDescBy (fun r => r.amount) out ∧
      (∀ v : ℚ, out.filter (fun r => decide (r.amount = v))
        = (c.counties.map c.gdp_record).filter
            (fun r => decide (r.amount = v))) := by
  have ht : 0 < total_inverse_weight c.counties :=
    total_inverse_weight_pos_of_distinct h2 hdistinct hpop hecon
  refine ⟨sortDesc (fun r => r.amount) (c.counties.map c.gdp_record),
    ?_, ?_, ?_, ?_, ?_, ?_⟩
  · unfold AllocationCalculator.gdp_per_capita_allocation
    rw [if_neg ht.ne']
  · exact sortDesc_perm _ _
  · intro clow hclow hlow r hr
    obtain ⟨x, hx, hxe⟩ := List.mem_map.mp
      ((mem_sortDesc (fun r : AllocRec => r.amount)).mp hr)
    rw [← hxe]
    exact gdp_record_amount_antitone ht hb (hlow x hx)
  · intro chigh hchigh hhigh r hr
    obtain ⟨x, hx, hxe⟩ := List.mem_map.mp
      ((mem_sortDesc (fun r : AllocRec => r.amount)).mp hr)
    rw [← hxe]
    exact gdp_record_amount_antitone ht hb (hhigh x hx)
  · exact sortDesc_sorted _ _
  · intro v
    exact sortDesc_filter _ _ v

/-- C2 witness: two counties with GDP per capita 3 and 1 at budget 100. -/
theorem C2_gdp_extremes_sorted_stable_witness :
    2 ≤ ([⟨1, "A", 2, 6, 5⟩, ⟨2, "B", 3, 3, 4⟩] : List County).length ∧
    (([⟨1, "A", 2, 6, 5⟩, ⟨2, "B", 3, 3, 4⟩] : List County).map
        County.gdp_per_capita).Pairwise (· ≠ ·) ∧
    (∃ out, (⟨100, [⟨1, "A", 2, 6, 5⟩, ⟨2, "B", 3, 3, 4⟩]⟩
        : AllocationCalculator).gdp_per_capita_allocation = Except.ok out ∧
      out.Perm (([⟨1, "A", 2, 6, 5⟩, ⟨2, "B", 3, 3, 4⟩] : List County).map
        (AllocationCalculator.gdp_record
          ⟨100, [⟨1, "A", 2, 6, 5⟩, ⟨2, "B", 3, 3, 4⟩]⟩)) ∧
      (∀ clow ∈ ([⟨1, "A", 2, 6, 5⟩, ⟨2, "B", 3, 3, 4⟩] : List County),
        (∀ x ∈ ([⟨1, "A", 2, 6, 5⟩, ⟨2, "B", 3, 3, 4⟩] : List County),
          clow.gdp_per_capita ≤ x.gdp_per_capita) →
        ∀ r ∈ out, r.amount ≤ (AllocationCalculator.gdp_record
          ⟨100, [⟨1, "A", 2, 6, 5⟩, ⟨2, "B", 3, 3, 4⟩]⟩ clow).amount) ∧
      (∀ chigh ∈ ([⟨1, "A", 2, 6, 5⟩, ⟨2, "B", 3, 3, 4⟩] : List County),
        (∀ x ∈ ([⟨1, "A", 2, 6, 5⟩, ⟨2, "B", 3, 3, 4⟩] : List County),
          x.gdp_per_capita ≤ chigh.gdp_per_capita) →
        ∀ r ∈ out, (AllocationCalculator.gdp_record
          ⟨100, [⟨1, "A", 2, 6, 5⟩, ⟨2, "B", 3, 3, 4⟩]⟩ chigh).amount
            ≤ r.amount) ∧
      SortedDescBy (fun r => r.amount) out ∧
      (∀ v : ℚ, out.filter (fun r => decide (r.amount = v))
        = (([⟨1, "A", 2, 6, 5⟩, ⟨2, "B", 3, 3, 4⟩] : List County).map
            (AllocationCalculator.gdp_record
              ⟨100, [⟨1, "A", 2, 6, 5⟩, ⟨2, "B", 3, 3, 4⟩]⟩)).filter
            (fun r => decide (r.amount = v)))) :=
  ⟨by norm_num,
   by norm_num [List.pairwise_cons, County.gdp_per_capita],
   C2_gdp_extremes_sorted_stable ⟨100, [⟨1, "A", 2, 6, 5⟩, ⟨2, "B", 3, 3, 4⟩]⟩
     (by norm_num)
     (by norm_num [List.pairwise_cons, County.gdp_per_capita])
     (by intro x hx; fin_cases hx <;> norm_num)
     (by intro x hx; fin_cases hx <;> norm_num)
     (by norm_num)⟩

/-! ### Domain lemmas about the project-score weighting -/

theorem length_le_total_project_score :
    ∀ {cs : List County}, (∀ x ∈ cs, 1 ≤ x.project_score) →
      (cs.length : ℤ) ≤ total_project_score cs := by
  intro cs
  induction cs with
  | nil => intro _; simp [total_project_score]
  | cons x xs ih =>
    intro h
    have hx := h x (by simp)
    have hxs := ih fun y hy => h y (by simp [hy])
    unfold total_project_score at hxs ⊢
    simp only [List.map_cons, List.sum_cons, List.length_cons]
    push_cast
    linarith

theorem total_project_score_pos {cs : List County} (hne : cs ≠ [])
    (hscore : ∀ x ∈ cs, 1 ≤ x.project_score) :
    0 < total_project_score cs := by
  have h1 := length_le_total_project_score hscore
  have h2 : 1 ≤ cs.length := List.length_pos.mpr hne
  have : (1 : ℤ) ≤ (cs.length : ℤ) := by exact_mod_cast h2
  linarith

theorem score_sum_cast : ∀ cs : List County,
    (cs.map fun x => (x.project_score : ℚ)).sum
      = ((total_project_score cs : ℤ) : ℚ) := by
  intro cs
  induction cs with
  | nil => simp [total_project_score]
  | cons x xs ih =>
    unfold total_project_score at ih ⊢
    simp only [List.map_cons, List.sum_cons, ih]
    push_cast
    ring

/-- Unrounded project amounts are monotone in the score; hence so are the
rounded amounts in the records. -/
theorem project_record_amount_mono {c : AllocationCalculator} {x y : County}
    (ht : 0 < total_project_score c.counties) (hb : 0 < c.budget_amount)
    (h : y.project_score ≤ x.project_score) :
    (c.project_record y).amount ≤ (c.project_record x).amount := by
  show round2 _ ≤ round2 _
  apply round2_mono
  have htq : (0 : ℚ) < ((total_project_score c.counties : ℤ) : ℚ) := by
    exact_mod_cast ht
  have hsc : ((y.project_score : ℤ) : ℚ) ≤ ((x.project_score : ℤ) : ℚ) := by
    exact_mod_cast h
  have h1 : (y.project_score : ℚ) / ((total_project_score c.counties : ℤ) : ℚ)
      ≤ (x.project_score : ℚ) / ((total_project_score c.counties : ℤ) : ℚ) :=
    div_le_div_of_nonneg_right hsc htq.le
  exact mul_le_mul_of_nonneg_right h1 hb.le

/-! ### Claim C3 -/

/-- C3: for a non-empty county list with scores in 1..10 and a positive
budget, `project_based_allocation` succeeds; the rounded amounts are monotone
in the project score; the amounts sum to the budget within the rounding
tolerance of half a cent per county; and the result is the per-county record
list sorted in descending score order, stably (the filter at each score
value is unchanged). -/
theorem C3_project_monotone_sum_sorted (c : AllocationCalculator)
    (hscore : ∀ x ∈ c.counties,
      1 ≤ x.project_score ∧ x.project_score ≤ 10)
    (hne : c.counties ≠ []) (hb : 0 < c.budget_amount) :
    ∃ out, c.project_based_allocation = Except.ok out ∧
      out.Perm (c.counties.map c.project_record) ∧
      (∀ x ∈ c.counties, ∀ y ∈ c.counties,
        y.project_score ≤ x.project_score →
        (c.project_record y).amount ≤ (c.project_record x).amount) ∧
      |(out.map AllocRec.amount).sum - c.budget_amount|
        ≤ (c.counties.length : ℚ) / 200 ∧
      SortedDescBy (fun r => r.project_score.getD 0) out ∧
      (∀ v : ℤ, out.filter (fun r => decide (r.project_score.getD 0 = v))
        = (c.counties.map c.project_record).filter
            (fun r => decide (r.project_score.getD 0 = v))) := by
  have ht : 0 < total_project_score c.counties :=
    total_project_score_pos hne fun x hx => (hscore x hx).1
  have htq : (0 : ℚ) < ((total_project_score c.counties : ℤ) : ℚ) := by
    exact_mod_cast ht
  refine ⟨sortDesc (fun r => r.project_score.getD 0)
      (c.counties.map c.project_record), ?_, ?_, ?_, ?_, ?_, ?_⟩
  · unfold AllocationCalculator.project_based_allocation
    rw [if_neg ht.ne']
  · exact sortDesc_perm _ _
  · intro x _ y _ h
    exact project_record_amount_mono ht hb h
  · -- the amount sum is within length / 200 of the budget
    have hperm : ((sortDesc (fun r => r.project_score.getD 0)
        (c.counties.map c.project_record)).map AllocRec.amount).Perm
        ((c.counties.map c.project_record).map AllocRec.amount) :=
      (sortDesc_perm _ _).map AllocRec.amount
    rw [hperm.sum_eq]
    have hmap : (c.counties.map c.project_record).map AllocRec.amount
        = (c.counties.map fun x =>
            (x.project_score : ℚ)
              / ((total_project_score c.counties : ℤ) : ℚ)
              * c.budget_amount).map round2 := by
      rw [List.map_map, List.map_map]
      rfl
    rw [hmap]
    have hclose := sum_round2_close (c.counties.map fun x =>
      (x.project_score : ℚ) / ((total_project_score c.counties : ℤ) : ℚ)
        * c.budget_amount)
    have hsum : (c.counties.map fun x =>
        (x.project_score : ℚ) / ((total_project_score c.counties : ℤ) : ℚ)
          * c.budget_amount).sum = c.budget_amount := by
      rw [list_sum_map_div_mul (fun x : County => (x.project_score : ℚ))
        ((total_project_score c.counties : ℤ) : ℚ) c.budget_amount
        c.counties]
      rw [score_sum_cast]
      field_simp
    rw [hsum] at hclose
    simpa using hclose
  · exact sortDesc_sorted _ _
  · intro v
    exact sortDesc_filter _ _ v

/-- C3 witness: two counties with scores 5 and 3 at budget 100. -/
theorem C3_project_monotone_sum_sorted_witness :
    (∀ x ∈ ([⟨1, "A", 2, 6, 5⟩, ⟨2, "B", 3, 3, 4⟩] : List County),
      1 ≤ x.project_score ∧ x.project_score ≤ 10) ∧
    (∃ out, (⟨100, [⟨1, "A", 2, 6, 5⟩, ⟨2, "B", 3, 3, 4⟩]⟩
        : AllocationCalculator).project_based_allocation = Except.ok out ∧
      out.Perm (([⟨1, "A", 2, 6, 5⟩, ⟨2, "B", 3, 3, 4⟩] : List County).map
        (AllocationCalculator.project_record
          ⟨100, [⟨1, "A", 2, 6, 5⟩, ⟨2, "B", 3, 3, 4⟩]⟩)) ∧
      (∀ x ∈ ([⟨1, "A", 2, 6, 5⟩, ⟨2, "B", 3, 3, 4⟩] : List County),
        ∀ y ∈ ([⟨1, "A", 2, 6, 5⟩, ⟨2, "B", 3, 3, 4⟩] : List County),
        y.project_score ≤ x.project_score →
        (AllocationCalculator.project_record
            ⟨100, [⟨1, "A", 2, 6, 5⟩, ⟨2, "B", 3, 3, 4⟩]⟩ y).amount
          ≤ (AllocationCalculator.project_record
            ⟨100, [⟨1, "A", 2, 6, 5⟩, ⟨2, "B", 3, 3, 4⟩]⟩ x).amount) ∧
      |(out.map AllocRec.amount).sum - 100|
        ≤ (([⟨1, "A", 2, 6, 5⟩, ⟨2, "B", 3, 3, 4⟩]
            : List County).length : ℚ) / 200 ∧
      SortedDescBy (fun r => r.project_score.getD 0) out ∧
      (∀ v : ℤ, out.filter (fun r => decide (r.project_score.getD 0 = v))
        = (([⟨1, "A", 2, 6, 5⟩, ⟨2, "B", 3, 3, 4⟩] : List County).map
            (AllocationCalculator.project_record
              ⟨100, [⟨1, "A", 2, 6, 5⟩, ⟨2, "B", 3, 3, 4⟩]⟩)).filter
            (fun r => decide (r.project_score.getD 0 = v)))) :=
  ⟨by intro x hx; fin_cases hx <;> norm_num,
   C3_project_monotone_sum_sorted
     ⟨100, [⟨1, "A", 2, 6, 5⟩, ⟨2, "B", 3, 3, 4⟩]⟩
     (by intro x hx; fin_cases hx <;> norm_num)
     (by simp)
     (by norm_num)⟩

/-! ### Claim C9 -/

/-- C9: `project_based_allocation` fails with the `DivisionByZero`-class
condition exactly on a zero score sum, and under the 1..10 score invariant
on a non-empty list that branch is unreachable: the operation succeeds. -/
theorem C9_project_zero_score_defense (c : AllocationCalculator) :
    (total_project_score c.counties = 0 →
      c.project_based_allocation
        = Except.error (Err.divisionByZero "Total project score cannot be zero")) ∧
    ((∀ x ∈ c.counties, 1 ≤ x.project_score ∧ x.project_score ≤ 10) →
      c.counties ≠ [] →
      ∃ l, c.project_based_allocation = Except.ok l) := by
  constructor
  · intro h
    unfold AllocationCalculator.project_based_allocation
    rw [if_pos h]
  · intro hscore hne
    have ht : 0 < total_project_score c.counties :=
      total_project_score_pos hne fun x hx => (hscore x hx).1
    refine ⟨sortDesc (fun r => r.project_score.getD 0)
      (c.counties.map c.project_record), ?_⟩
    unfold AllocationCalculator.project_based_allocation
    rw [if_neg ht.ne']

/-- C9 witness: a zero-score-sum list takes the error branch, and the
concrete valid calculator of the other claims takes the success branch. -/
theorem C9_project_zero_score_defense_witness :
    (AllocationCalculator.mk 100 [⟨1, "A", 1, 5, 0⟩]).project_based_allocation
      = Except.error (Err.divisionByZero "Total project score cannot be zero") ∧
    ∃ l, (AllocationCalculator.mk 100
        [⟨1, "A", 2, 6, 5⟩, ⟨2, "B", 3, 3, 4⟩]).project_based_allocation
      = Except.ok l :=
  ⟨(C9_project_zero_score_defense ⟨100, [⟨1, "A", 1, 5, 0⟩]⟩).1
     (by norm_num [total_project_score]),
   (C9_project_zero_score_defense
       ⟨100, [⟨1, "A", 2, 6, 5⟩, ⟨2, "B", 3, 3, 4⟩]⟩).2
     (by intro x hx; fin_cases hx <;> norm_num)
     (by simp)⟩

/-! ### Claim C4 -/

theorem sum_map_const_q {γ : Type} (a : ℚ) :
    ∀ l : List γ, (l.map fun _ => a).sum = (l.length : ℚ) * a := by
  intro l
  induction l with
  | nil => simp
  | cons x xs ih => simp [ih]; ring

/-- C4: `equal_allocation` returns one record per county, in input order,
each with amount `round2 (budget / N)` and percentage `round2 (100 / N)`,
and the amounts sum to the budget within the rounding tolerance of half a
cent per county. -/
theorem C4_equal_uniform_shares (c : AllocationCalculator)
    (hb : 0 < c.budget_amount) (hne : c.counties ≠ []) :
    c.equal_allocation.length = c.counties.length ∧
    (∀ i (hi : i < c.counties.length), ∃ hi2 : i < c.equal_allocation.length,
      (c.equal_allocation.get ⟨i, hi2⟩).county_id
          = (c.counties.get ⟨i, hi⟩).id ∧
      (c.equal_allocation.get ⟨i, hi2⟩).county_name
          = (c.counties.get ⟨i, hi⟩).name ∧
      (c.equal_allocation.get ⟨i, hi2⟩).amount
          = round2 (c.budget_amount / (c.counties.length : ℚ)) ∧
      (c.equal_allocation.get ⟨i, hi2⟩).percentage
          = round2 (100 / (c.counties.length : ℚ))) ∧
    |(c.equal_allocation.map AllocRec.amount).sum - c.budget_amount|
      ≤ (c.counties.length : ℚ) / 200 := by
  have hlen : c.equal_allocation.length = c.counties.length := by
    unfold AllocationCalculator.equal_allocation
    simp
  have hnq : ((c.counties.length : ℚ)) ≠ 0 := by
    have : 0 < c.counties.length := List.length_pos.mpr hne
    exact_mod_cast Nat.pos_iff_ne_zero.mp this
  have hpct : c.budget_amount / (c.counties.length : ℚ) / c.budget_amount * 100
      = 100 / (c.counties.length : ℚ) := by
    field_simp
    ring
  refine ⟨hlen, ?_, ?_⟩
  · intro i hi
    refine ⟨by rwa [hlen], ?_⟩
    unfold AllocationCalculator.equal_allocation
    simp only [List.get_eq_getElem, List.getElem_map]
    exact ⟨trivial, trivial, trivial, by rw [hpct]⟩
  · have hmap : c.equal_allocation.map AllocRec.amount
        = (c.counties.map fun _ =>
            c.budget_amount / (c.counties.length : ℚ)).map round2 := by
      unfold AllocationCalculator.equal_allocation
      rw [List.map_map, List.map_map]
      rfl
    rw [hmap]
    have hclose := sum_round2_close (c.counties.map fun _ =>
      c.budget_amount / (c.counties.length : ℚ))
    have hsum : (c.counties.map fun _ =>
        c.budget_amount / (c.counties.length : ℚ)).sum = c.budget_amount := by
      rw [sum_map_const_q]
      field_simp
    rw [hsum] at hclose
    simpa using hclose

/-- C4 witness: three counties at budget 1000. -/
theorem C4_equal_uniform_shares_witness :
    (AllocationCalculator.mk 1000
        [⟨1, "A", 2, 6, 5⟩, ⟨2, "B", 3, 3, 4⟩,
         ⟨3, "C", 5, 10, 1⟩]).equal_allocation.length
      = ([⟨1, "A", 2, 6, 5⟩, ⟨2, "B", 3, 3, 4⟩,
          ⟨3, "C", 5, 10, 1⟩] : List County).length ∧
    (∀ i (hi : i < ([⟨1, "A", 2, 6, 5⟩, ⟨2, "B", 3, 3, 4⟩,
          ⟨3, "C", 5, 10, 1⟩] : List County).length),
      ∃ hi2 : i < (AllocationCalculator.mk 1000
          [⟨1, "A", 2, 6, 5⟩, ⟨2, "B", 3, 3, 4⟩,
           ⟨3, "C", 5, 10, 1⟩]).equal_allocation.length,
      ((AllocationCalculator.mk 1000
          [⟨1, "A", 2, 6, 5⟩, ⟨2, "B", 3, 3, 4⟩,
           ⟨3, "C", 5, 10, 1⟩]).equal_allocation.get ⟨i, hi2⟩).county_id
          = (([⟨1, "A", 2, 6, 5⟩, ⟨2, "B", 3, 3, 4⟩,
              ⟨3, "C", 5, 10, 1⟩] : List County).get ⟨i, hi⟩).id ∧
      ((AllocationCalculator.mk 1000
          [⟨1, "A", 2, 6, 5⟩, ⟨2, "B", 3, 3, 4⟩,
           ⟨3, "C", 5, 10, 1⟩]).equal_allocation.get ⟨i, hi2⟩).county_name
          = (([⟨1, "A", 2, 6, 5⟩, ⟨2, "B", 3, 3, 4⟩,
              ⟨3, "C", 5, 10, 1⟩] : List County).get ⟨i, hi⟩).name ∧
      ((AllocationCalculator.mk 1000
          [⟨1, "A", 2, 6, 5⟩, ⟨2, "B", 3, 3, 4⟩,
           ⟨3, "C", 5, 10, 1⟩]).equal_allocation.get ⟨i, hi2⟩).amount
          = round2 (1000 / (([⟨1, "A", 2, 6, 5⟩, ⟨2, "B", 3, 3, 4⟩,
              ⟨3, "C", 5, 10, 1⟩] : List County).length : ℚ)) ∧
      ((AllocationCalculator.mk 1000
          [⟨1, "A", 2, 6, 5⟩, ⟨2, "B", 3, 3, 4⟩,
           ⟨3, "C", 5, 10, 1⟩]).equal_allocation.get ⟨i, hi2⟩).percentage
          = round2 (100 / (([⟨1, "A", 2, 6, 5⟩, ⟨2, "B", 3, 3, 4⟩,
              ⟨3, "C", 5, 10, 1⟩] : List County).length : ℚ))) ∧
    |((AllocationCalculator.mk 1000
        [⟨1, "A", 2, 6, 5⟩, ⟨2, "B", 3, 3, 4⟩,
         ⟨3, "C", 5, 10, 1⟩]).equal_allocation.map AllocRec.amount).sum
        - 1000|
      ≤ (([⟨1, "A", 2, 6, 5⟩, ⟨2, "B", 3, 3, 4⟩,
          ⟨3, "C", 5, 10, 1⟩] : List County).length : ℚ) / 200 :=
  C4_equal_uniform_shares
    ⟨1000, [⟨1, "A", 2, 6, 5⟩, ⟨2, "B", 3, 3, 4⟩, ⟨3, "C", 5, 10, 1⟩]⟩
    (by norm_num) (by simp)

/-! ### Claim C5 -/

theorem equal_amount_isCent (c : AllocationCalculator) :
    ∀ r ∈ c.equal_allocation, IsCent r.amount := by
  intro r hr
  unfold AllocationCalculator.equal_allocation at hr
  obtain ⟨x, _, hxe⟩ := List.mem_map.mp hr
  rw [← hxe]
  exact isCent_round2 _

theorem gdp_amount_isCent (c : AllocationCalculator) {l : List AllocRec}
    (h : c.gdp_per_capita_allocation = Except.ok l) :
    ∀ r ∈ l, IsCent r.amount := by
  unfold AllocationCalculator.gdp_per_capita_allocation at h
  by_cases ht : total_inverse_weight c.counties = 0
  · rw [if_pos ht] at h
    cases h
  · rw [if_neg ht] at h
    obtain rfl := (Except.ok.injEq _ _).mp h.symm
    intro r hr
    obtain ⟨x, _, hxe⟩ := List.mem_map.mp
      ((mem_sortDesc (fun r : AllocRec => r.amount)).mp hr)
    rw [← hxe]
    exact isCent_round2 _

theorem project_amount_isCent (c : AllocationCalculator) {l : List AllocRec}
    (h : c.project_based_allocation = Except.ok l) :
    ∀ r ∈ l, IsCent r.amount := by
  unfold AllocationCalculator.project_based_allocation at h
  by_cases ht : total_project_score c.counties = 0
  · rw [if_pos ht] at h
    cases h
  · rw [if_neg ht] at h
    obtain rfl := (Except.ok.injEq _ _).mp h.symm
    intro r hr
    obtain ⟨x, _, hxe⟩ := List.mem_map.mp
      ((mem_sortDesc (fun r : AllocRec => r.project_score.getD 0)).mp hr)
    rw [← hxe]
    exact isCent_round2 _

/-- C5 counterexample: at the valid budget 100.004 with one county, the
computed summary has `remaining = 0`, but
`total_budget - total_allocated = 100.004 - 100 = 0.004 ≠ 0`: `remaining`
is the rounded difference, not the exact one. -/
theorem C5_counterexample :
    ((AllocationCalculator.mk (25001/250)
        [⟨1, "A", 1, 0, 5⟩]).get_allocation_summary "equal").map
        Summary.total_budget = Except.ok (25001/250) ∧
    ((AllocationCalculator.mk (25001/250)
        [⟨1, "A", 1, 0, 5⟩]).get_allocation_summary "equal").map
        Summary.total_allocated = Except.ok 100 ∧
    ((AllocationCalculator.mk (25001/250)
        [⟨1, "A", 1, 0, 5⟩]).get_allocation_summary "equal").map
        Summary.remaining = Except.ok 0 ∧
    (0 : ℚ) ≠ 25001/250 - 100 := by
  have h1 : round2 (25001/250) = 100 := by
    norm_num [round2, round_eq]
  have h2 : round2 (25001/250 - 100) = 0 := by
    have : (25001 : ℚ)/250 - 100 = 1/250 := by norm_num
    rw [this]
    norm_num [round2, round_eq]
  have h3 : round2 (100 : ℚ) = 100 := by
    norm_num [round2, round_eq]
  refine ⟨?_, ?_, ?_, by norm_num⟩ <;>
    simp [AllocationCalculator.get_allocation_summary,
      AllocationCalculator.equal_allocation, Except.map, h1, h2, h3]

/-- C5 amended: for each valid method name, a successful summary has
`total_allocated` equal to the (already cent-valued) sum of the rounded
per-county amounts, `remaining` equal to `round2 (total_budget -
total_allocated)` (the exact difference only when the budget is a whole
number of cents), and `num_counties` equal to the number of counties. -/
theorem C5_summary_composition (c : AllocationCalculator) (method : String)
    (hm : method = "equal" ∨ method = "gdp_per_capita"
      ∨ method = "project_based") :
    ∀ s, c.get_allocation_summary method = Except.ok s →
      s.total_allocated = (s.allocations.map AllocRec.amount).sum ∧
      s.remaining = round2 (c.budget_amount - s.total_allocated) ∧
      s.num_counties = c.counties.length ∧
      s.method = method ∧
      s.total_budget = c.budget_amount := by
  intro s hs
  have key : ∃ l, (∀ r ∈ l, IsCent r.amount) ∧
      s = { method := method
            total_budget := c.budget_amount
            total_allocated := round2 ((l.map AllocRec.amount).sum)
            remaining := round2 (c.budget_amount - (l.map AllocRec.amount).sum)
            num_counties := c.counties.length
            allocations := l } := by
    rcases hm with rfl | rfl | rfl
    · unfold AllocationCalculator.get_allocation_summary at hs
      simp only [if_pos rfl, Except.map] at hs
      exact ⟨c.equal_allocation, equal_amount_isCent c,
        ((Except.ok.injEq _ _).mp hs).symm⟩
    · unfold AllocationCalculator.get_allocation_summary at hs
      rw [if_neg (by simp), if_pos rfl] at hs
      cases hgdp : c.gdp_per_capita_allocation with
      | error e => rw [hgdp] at hs; cases hs
      | ok l =>
        rw [hgdp] at hs
        simp only [Except.map] at hs
        exact ⟨l, gdp_amount_isCent c hgdp,
          ((Except.ok.injEq _ _).mp hs).symm⟩
    · unfold AllocationCalculator.get_allocation_summary at hs
      rw [if_neg (by simp), if_neg (by simp), if_pos rfl] at hs
      cases hproj : c.project_based_allocation with
      | error e => rw [hproj] at hs; cases hs
      | ok l =>
        rw [hproj] at hs
        simp only [Except.map] at hs
        exact ⟨l, project_amount_isCent c hproj,
          ((Except.ok.injEq _ _).mp hs).symm⟩
  obtain ⟨l, hcent, rfl⟩ := key
  have hsum : round2 ((l.map AllocRec.amount).sum)
      = (l.map AllocRec.amount).sum := by
    apply round2_eq_self
    apply isCent_sum
    intro x hx
    obtain ⟨r, hr, hre⟩ := List.mem_map.mp hx
    rw [← hre]
    exact hcent r hr
  exact ⟨hsum, by rw [hsum], rfl, rfl, rfl⟩

/-- The single-county calculator at budget 100 used by the C5 witness. -/
def sampleCalc100 : AllocationCalculator := ⟨100, [⟨1, "A", 2, 6, 5⟩]⟩

/-- The summary `sampleCalc100` produces for the `equal` method. -/
def sampleSummary100 : Summary :=
  { method := "equal"
    total_budget := 100
    total_allocated := 100
    remaining := 0
    num_counties := 1
    allocations := [{ county_id := 1
                      county_name := "A"
                      amount := 100
                      percentage := 100
                      method := "equal" }] }

/-- C5 witness: the amended claim at budget 100 with one county, method
`equal`. -/
theorem C5_summary_composition_witness :
    ("equal" = "equal" ∨ "equal" = "gdp_per_capita"
      ∨ "equal" = "project_based") ∧
    (sampleCalc100.get_allocation_summary "equal"
      = Except.ok sampleSummary100) ∧
    (sampleSummary100.total_allocated
        = (sampleSummary100.allocations.map AllocRec.amount).sum ∧
      sampleSummary100.remaining
        = round2 (sampleCalc100.budget_amount
            - sampleSummary100.total_allocated) ∧
      sampleSummary100.num_counties = sampleCalc100.counties.length ∧
      sampleSummary100.method = "equal" ∧
      sampleSummary100.total_budget = sampleCalc100.budget_amount) := by
  have hm : ("equal" = "equal" ∨ "equal" = "gdp_per_capita"
      ∨ "equal" = "project_based") := Or.inl rfl
  have hok : sampleCalc100.get_allocation_summary "equal"
      = Except.ok sampleSummary100 := by
    simp only [AllocationCalculator.get_allocation_summary,
      AllocationCalculator.equal_allocation, Except.map, if_pos rfl,
      sampleCalc100, sampleSummary100]
    norm_num [round2, round_eq]
  exact ⟨hm, hok,
    C5_summary_composition sampleCalc100 "equal" hm sampleSummary100 hok⟩

/-! ### Claim C7 -/

/-- C7: for a valid construction, `compare_allocation_methods` returns a
mapping with exactly the three method keys, in order, and each key holds
that method's own result: its summary on success, its error message on
failure — so one failing method never disturbs the other two entries. -/
theorem C7_compare_isolates_methods (b : ℚ) (cs : List County)
    (hne : cs ≠ []) (hb : 0 < b) :
    ∃ comp, compare_allocation_methods b cs = Except.ok comp ∧
      comp.methods.map Prod.fst
        = ["equal", "gdp_per_capita", "project_based"] ∧
      comp.budget_amount = b ∧
      comp.num_counties = cs.length ∧
      (∀ m ∈ ["equal", "gdp_per_capita", "project_based"],
        comp.methods.lookup m = some
          ((AllocationCalculator.mk b cs).get_allocation_summary m
            |>.mapError Err.message)) ∧
      (∀ m ∈ ["equal", "gdp_per_capita", "project_based"], ∀ e,
        (AllocationCalculator.mk b cs).get_allocation_summary m
            = Except.error e →
        comp.methods.lookup m = some (Except.error e.message)) := by
  have hinit : AllocationCalculator.init b cs
      = Except.ok ⟨b, cs⟩ := by
    unfold AllocationCalculator.init
    rw [if_neg hne, if_neg (not_le.mpr hb)]
  refine ⟨_, by rw [compare_allocation_methods, hinit]; rfl, ?_, rfl, rfl,
    ?_, ?_⟩
  · rfl
  · intro m hm
    rcases List.mem_cons.mp hm with rfl | hm
    · simp [List.lookup]
    rcases List.mem_cons.mp hm with rfl | hm
    · simp [List.lookup]
    rcases List.mem_cons.mp hm with rfl | hm
    · simp [List.lookup]
    · cases hm
  · intro m hm e he
    rcases List.mem_cons.mp hm with rfl | hm
    · simp [List.lookup, he, Except.mapError]
    rcases List.mem_cons.mp hm with rfl | hm
    · simp [List.lookup, he, Except.mapError]
    rcases List.mem_cons.mp hm with rfl | hm
    · simp [List.lookup, he, Except.mapError]
    · cases hm

/-- C7 witness: one county with GDP per capita 0, so the `gdp_per_capita`
method fails with `ZeroDivisionError` while `equal` and `project_based`
still produce summaries under their keys. -/
theorem C7_compare_isolates_methods_witness :
    (∃ comp, compare_allocation_methods 100 [⟨1, "A", 1, 0, 5⟩]
        = Except.ok comp ∧
      comp.methods.map Prod.fst
        = ["equal", "gdp_per_capita", "project_based"] ∧
      comp.budget_amount = 100 ∧
      comp.num_counties = ([⟨1, "A", 1, 0, 5⟩] : List County).length ∧
      (∀ m ∈ ["equal", "gdp_per_capita", "project_based"],
        comp.methods.lookup m = some
          ((AllocationCalculator.mk 100
              [⟨1, "A", 1, 0, 5⟩]).get_allocation_summary m
            |>.mapError Err.message)) ∧
      (∀ m ∈ ["equal", "gdp_per_capita", "project_based"], ∀ e,
        (AllocationCalculator.mk 100
            [⟨1, "A", 1, 0, 5⟩]).get_allocation_summary m
            = Except.error e →
        comp.methods.lookup m = some (Except.error e.message))) ∧
    (AllocationCalculator.mk 100
        [⟨1, "A", 1, 0, 5⟩]).get_allocation_summary "gdp_per_capita"
      = Except.error (Err.divisionByZero "float division by zero") ∧
    ∃ s1, (AllocationCalculator.mk 100
        [⟨1, "A", 1, 0, 5⟩]).get_allocation_summary "equal"
      = Except.ok s1 := by
  have ht : total_inverse_weight [⟨1, "A", 1, 0, 5⟩] = 0 := by
    norm_num [total_inverse_weight, County.inverse_weight, min_gdp, max_gdp,
      qmin, qmax, County.gdp_per_capita]
  have hgdp : (AllocationCalculator.mk 100
      [⟨1, "A", 1, 0, 5⟩]).get_allocation_summary "gdp_per_capita"
      = Except.error (Err.divisionByZero "float division by zero") := by
    have hfail : (AllocationCalculator.mk 100
        [⟨1, "A", 1, 0, 5⟩]).gdp_per_capita_allocation
        = Except.error (Err.divisionByZero "float division by zero") := by
      unfold AllocationCalculator.gdp_per_capita_allocation
      rw [if_pos ht]
    unfold AllocationCalculator.get_allocation_summary
    rw [if_neg (by simp), if_pos rfl, hfail]
    rfl
  refine ⟨C7_compare_isolates_methods 100 [⟨1, "A", 1, 0, 5⟩]
      (by simp) (by norm_num), hgdp, ?_⟩
  unfold AllocationCalculator.get_allocation_summary
  rw [if_pos rfl]
  exact ⟨_, rfl⟩

/-! ### Claim C8: storage model for `create_budget_with_allocations`

The relational store (budgets and allocations tables of
src/lib/models/base.py's SQLite database) and the SQLAlchemy session:
`add`/`flush` write inside the open transaction, `commit` makes the
transaction durable, `rollback` resets it to the durable state.  A failure
schedule says which storage writes raise, modelling injected
`PersistenceFailure`s. -/

/-- A row of the `budgets` table. -/
structure BudgetRow where
  id : ℕ
  name : String
  total_amount : ℚ
  allocation_method : String
  deriving Repr, DecidableEq

/-- A row of the `allocations` table. -/
structure AllocationRow where
  id : ℕ
  budget_id : ℕ
  county_id : ℤ
  amount : ℚ
  deriving Repr, DecidableEq

/-- The two tables the orchestration writes, plus the primary-key counter. -/
structure Store where
  budgets : List BudgetRow
  allocations : List AllocationRow
  next_id : ℕ
  deriving Repr, DecidableEq

/-- A database session: the durable state, the in-transaction state, and a
counter of storage writes attempted so far (for the failure schedule). -/
structure Session where
  committed : Store
  txn : Store
  write_count : ℕ
  deriving Repr, DecidableEq

/-- Python `str.strip()`: drop leading and trailing whitespace. -/
def pyStrip (s : String) : String :=
  ⟨((s.data.dropWhile Char.isWhitespace).reverse.dropWhile
      Char.isWhitespace).reverse⟩

/-- `Budget.validate_name` (src/lib/models/budget.py, lines 18-24):
`not name or len(name.strip()) == 0` rejects the name, then the length
bound; the stored name is the stripped one. -/
def validate_budget_name (name : String) : Except Err String :=
  if name = "" ∨ (pyStrip name).length = 0 then
    .error (.invalidInput "Budget name cannot be empty")
  else if name.length > 200 then
    .error (.invalidInput "Budget name cannot exceed 200 characters")
  else
    .ok (pyStrip name)

/-- `Budget.validate_total_amount` (budget.py, lines 26-30). -/
def validate_budget_amount (total_amount : ℚ) : Except Err Unit :=
  if total_amount ≤ 0 then
    .error (.invalidInput "Total budget amount must be greater than 0")
  else
    .ok ()

/-- `Budget.validate_allocation_method` (budget.py, lines 32-37). -/
def validate_budget_method (allocation_method : String) : Except Err Unit :=
  if allocation_method = "equal" ∨ allocation_method = "gdp_per_capita"
      ∨ allocation_method = "project_based" then
    .ok ()
  else
    .error (.invalidInput
      "Allocation method must be one of: equal, gdp_per_capita, project_based")

/-- `Allocation.validate_amount` (src/lib/models/allocation.py, lines 19-24). -/
def validate_allocation_amount (amount : ℚ) : Except Err Unit :=
  if amount < 0 then
    .error (.invalidInput "Allocation amount cannot be negative")
  else
    .ok ()

/-- `session.add(budget); session.flush()`: INSERT the budget row inside the
transaction, assigning its id; fails when the schedule injects a storage
failure at this write. -/
def Session.insertBudget (sched : ℕ → Bool) (s : Session) (name : String)
    (total_amount : ℚ) (allocation_method : String) :
    Except Err (Session × BudgetRow) :=
  if sched s.write_count then
    .error (.persistenceFailure "storage failure")
  else
    let row : BudgetRow := ⟨s.txn.next_id, name, total_amount,
      allocation_method⟩
    .ok ({ committed := s.committed
           txn := { budgets := s.txn.budgets ++ [row]
                    allocations := s.txn.allocations
                    next_id := s.txn.next_id + 1 }
           write_count := s.write_count + 1 }, row)

/-- INSERT one allocation row inside the transaction (the insert SQLAlchemy
issues for each added `Allocation` when the transaction is flushed). -/
def Session.insertAllocation (sched : ℕ → Bool) (s : Session)
    (budget_id : ℕ) (county_id : ℤ) (amount : ℚ) :
    Except Err (Session × AllocationRow) :=
  if sched s.write_count then
    .error (.persistenceFailure "storage failure")
  else
    let row : AllocationRow := ⟨s.txn.next_id, budget_id, county_id, amount⟩
    .ok ({ committed := s.committed
           txn := { budgets := s.txn.budgets
                    allocations := s.txn.allocations ++ [row]
                    next_id := s.txn.next_id + 1 }
           write_count := s.write_count + 1 }, row)

/-- `session.commit()`: make the transaction durable; it too can hit a
storage failure. -/
def Session.commit (sched : ℕ → Bool) (s : Session) : Except Err Session :=
  if sched s.write_count then
    .error (.persistenceFailure "storage failure")
  else
    .ok { committed := s.txn, txn := s.txn, write_count := s.write_count + 1 }

/-- `session.rollback()`: discard the transaction, keep the durable state. -/
def Session.rollback (s : Session) : Session :=
  { committed := s.committed, txn := s.committed,
    write_count := s.write_count }

/-- The allocation-record loop of `create_budget_with_allocations`
(allocation_methods.py, lines 170-178): validate and insert one allocation
row per summary entry. -/
def runInserts (sched : ℕ → Bool) (s : Session) (budget_id : ℕ) :
    List AllocRec → Session × Except Err (List AllocationRow)
  | [] => (s, .ok [])
  | a :: rest =>
    match validate_allocation_amount a.amount with
    | .error e => (s, .error e)
    | .ok _ =>
      match s.insertAllocation sched budget_id a.county_id a.amount with
      | .error e => (s, .error e)
      | .ok (s1, row) =>
        match runInserts sched s1 budget_id rest with
        | (s2, .error e) => (s2, .error e)
        | (s2, .ok rows) => (s2, .ok (row :: rows))

/-- The body of the `try` block of `create_budget_with_allocations`
(allocation_methods.py, lines 155-187): build and insert the budget,
compute the summary, insert the allocation rows, commit. -/
def createAttempt (sched : ℕ → Bool) (s : Session) (name : String)
    (total_amount : ℚ) (allocation_method : String) (counties : List County) :
    Session × Except Err (BudgetRow × List AllocationRow) :=
  match validate_budget_name name with
  | .error e => (s, .error e)
  | .ok nm =>
    match validate_budget_amount total_amount with
    | .error e => (s, .error e)
    | .ok _ =>
      match validate_budget_method allocation_method with
      | .error e => (s, .error e)
      | .ok _ =>
        match s.insertBudget sched nm total_amount allocation_method with
        | .error e => (s, .error e)
        | .ok (s1, budget) =>
          match AllocationCalculator.init total_amount counties with
          | .error e => (s1, .error e)
          | .ok calculator =>
            match calculator.get_allocation_summary allocation_method with
            | .error e => (s1, .error e)
            | .ok summary =>
              match runInserts sched s1 budget.id summary.allocations with
              | (s2, .error e) => (s2, .error e)
              | (s2, .ok rows) =>
                match s2.commit sched with
                | .error e => (s2, .error e)
                | .ok s3 => (s3, .ok (budget, rows))

/-- `create_budget_with_allocations` (allocation_methods.py, lines
140-193): open a session on the durable store, run the attempt, and on any
exception roll the transaction back; the durable store after `close` is
returned together with the result. -/
def create_budget_with_allocations (sched : ℕ → Bool) (db : Store)
    (name : String) (total_amount : ℚ) (allocation_method : String)
    (counties : List County) :
    Store × Except Err (BudgetRow × List AllocationRow) :=
  let session : Session := ⟨db, db, 0⟩
  match createAttempt sched session name total_amount allocation_method
      counties with
  | (s, .ok (budget, rows)) => (s.committed, .ok (budget, rows))
  | (s, .error e) => (s.rollback.committed, .error e)

theorem runInserts_spec (sched : ℕ → Bool) (budget_id : ℕ) :
    ∀ (l : List AllocRec) (s : Session),
      (runInserts sched s budget_id l).1.committed = s.committed ∧
      ∀ rows, (runInserts sched s budget_id l).2 = Except.ok rows →
        (runInserts sched s budget_id l).1.txn.budgets = s.txn.budgets ∧
        (runInserts sched s budget_id l).1.txn.allocations
          = s.txn.allocations ++ rows ∧
        rows.map (fun r => (r.county_id, r.amount))
          = l.map (fun a => (a.county_id, a.amount)) := by
  intro l
  induction l with
  | nil =>
    intro s
    simp only [runInserts]
    refine ⟨trivial, ?_⟩
    intro rows h
    obtain rfl := (Except.ok.injEq _ _).mp h.symm
    exact ⟨trivial, by simp, by simp⟩
  | cons a rest ih =>
    intro s
    simp only [runInserts]
    cases hv : validate_allocation_amount a.amount with
    | error e => exact ⟨rfl, by intro rows h; cases h⟩
    | ok u =>
      simp only []
      unfold Session.insertAllocation
      by_cases hsch : sched s.write_count
      · rw [if_pos hsch]
        exact ⟨rfl, by intro rows h; cases h⟩
      · rw [if_neg hsch]
        simp only []
        obtain ⟨ihc, ihok⟩ := ih
          { committed := s.committed
            txn := { budgets := s.txn.budgets
                     allocations := s.txn.allocations
                       ++ [⟨s.txn.next_id, budget_id, a.county_id, a.amount⟩]
                     next_id := s.txn.next_id + 1 }
            write_count := s.write_count + 1 }
        cases hrun : runInserts sched
            { committed := s.committed
              txn := { budgets := s.txn.budgets
                       allocations := s.txn.allocations
                         ++ [⟨s.txn.next_id, budget_id, a.county_id, a.amount⟩]
                       next_id := s.txn.next_id + 1 }
              write_count := s.write_count + 1 } budget_id rest with
        | mk s2 res =>
          rw [hrun] at ihc ihok
          cases res with
          | error e =>
            exact ⟨ihc, by intro rows h; cases h⟩
          | ok rows2 =>
            refine ⟨ihc, ?_⟩
            intro rows h
            obtain rfl := (Except.ok.injEq _ _).mp h.symm
            obtain ⟨hb, ha, hcorr⟩ := ihok rows2 rfl
            refine ⟨hb, ?_, ?_⟩
            · rw [ha]
              simp
            · simp only [List.map_cons, hcorr]

theorem createAttempt_spec (sched : ℕ → Bool) (db : Store) (name : String)
    (total_amount : ℚ) (allocation_method : String) (counties : List County) :
    (∀ e, (createAttempt sched ⟨db, db, 0⟩ name total_amount
        allocation_method counties).2 = Except.error e →
      (createAttempt sched ⟨db, db, 0⟩ name total_amount
        allocation_method counties).1.committed = db) ∧
    (∀ budget rows, (createAttempt sched ⟨db, db, 0⟩ name total_amount
        allocation_method counties).2 = Except.ok (budget, rows) →
      ∃ calculator summary,
        AllocationCalculator.init total_amount counties
          = Except.ok calculator ∧
        calculator.get_allocation_summary allocation_method
          = Except.ok summary ∧
        rows.map (fun r => (r.county_id, r.amount))
          = summary.allocations.map (fun a => (a.county_id, a.amount)) ∧
        (createAttempt sched ⟨db, db, 0⟩ name total_amount
          allocation_method counties).1.committed.budgets
            = db.budgets ++ [budget] ∧
        (createAttempt sched ⟨db, db, 0⟩ name total_amount
          allocation_method counties).1.committed.allocations
            = db.allocations ++ rows) := by
  unfold createAttempt
  cases hv1 : validate_budget_name name with
  | error e => exact ⟨fun e h => rfl, by intro b r h; cases h⟩
  | ok nm =>
  simp only []
  cases hv2 : validate_budget_amount total_amount with
  | error e => exact ⟨fun e h => rfl, by intro b r h; cases h⟩
  | ok u2 =>
  simp only []
  cases hv3 : validate_budget_method allocation_method with
  | error e => exact ⟨fun e h => rfl, by intro b r h; cases h⟩
  | ok u3 =>
  simp only []
  unfold Session.insertBudget
  by_cases hsch : sched 0
  · simp only [if_pos hsch]
    exact ⟨fun e h => trivial, by intro b r h; cases h⟩
  · simp only [if_neg hsch]
    cases hinit : AllocationCalculator.init total_amount counties with
    | error e => exact ⟨fun e h => rfl, by intro b r h; cases h⟩
    | ok calculator =>
    simp only []
    cases hsum : calculator.get_allocation_summary allocation_method with
    | error e => exact ⟨fun e h => rfl, by intro b r h; cases h⟩
    | ok summary =>
    simp only []
    obtain ⟨runc, runok⟩ := runInserts_spec sched db.next_id
      summary.allocations
      { committed := db
        txn := { budgets := db.budgets
                   ++ [⟨db.next_id, nm, total_amount, allocation_method⟩]
                 allocations := db.allocations
                 next_id := db.next_id + 1 }
        write_count := 0 + 1 }
    cases hrun : runInserts sched
        { committed := db
          txn := { budgets := db.budgets
                     ++ [⟨db.next_id, nm, total_amount, allocation_method⟩]
                   allocations := db.allocations
                   next_id := db.next_id + 1 }
          write_count := 0 + 1 } db.next_id summary.allocations with
    | mk s2 res =>
      rw [hrun] at runc runok
      cases res with
      | error e =>
        exact ⟨fun e h => runc, by intro b r h; cases h⟩
      | ok rows2 =>
        simp only []
        unfold Session.commit
        by_cases hsch2 : sched s2.write_count
        · simp only [if_pos hsch2]
          exact ⟨fun e h => runc, by intro b r h; cases h⟩
        · simp only [if_neg hsch2]
          refine ⟨?_, ?_⟩
          · intro e h
            cases h
          intro budget rows h
          have hpair : ((⟨db.next_id, nm, total_amount, allocation_method⟩
                : BudgetRow), rows2)
              = (budget, rows) := (Except.ok.injEq _ _).mp h
          have hb : (⟨db.next_id, nm, total_amount, allocation_method⟩
                : BudgetRow)
              = budget := congrArg Prod.fst hpair
          have hr : rows2 = rows := congrArg Prod.snd hpair
          obtain ⟨htb, hta, hcorr⟩ := runok rows2 rfl
          refine ⟨calculator, summary, rfl, hsum, ?_, ?_, ?_⟩
          · rw [← hr]
            exact hcorr
          · rw [← hb]
            simpa using htb
          · rw [← hr]
            simpa using hta

/-- C8: `create_budget_with_allocations` is atomic.  For every failure
schedule and input, either the attempt fails and the durable store is
unchanged (no budget row, no allocation row from the attempt survives the
rollback), or it succeeds and the durable store holds exactly the initial
rows plus the budget row and one allocation row per entry of the chosen
method's summary. -/
theorem C8_create_budget_atomic (sched : ℕ → Bool) (db : Store)
    (name : String) (total_amount : ℚ) (allocation_method : String)
    (counties : List County) :
    (∀ e, (create_budget_with_allocations sched db name total_amount
        allocation_method counties).2 = Except.error e →
      (create_budget_with_allocations sched db name total_amount
        allocation_method counties).1 = db) ∧
    (∀ budget rows, (create_budget_with_allocations sched db name
        total_amount allocation_method counties).2
          = Except.ok (budget, rows) →
      ∃ calculator summary,
        AllocationCalculator.init total_amount counties
          = Except.ok calculator ∧
        calculator.get_allocation_summary allocation_method
          = Except.ok summary ∧
        rows.map (fun r => (r.county_id, r.amount))
          = summary.allocations.map (fun a => (a.county_id, a.amount)) ∧
        (create_budget_with_allocations sched db name total_amount
          allocation_method counties).1.budgets = db.budgets ++ [budget] ∧
        (create_budget_with_allocations sched db name total_amount
          allocation_method counties).1.allocations
            = db.allocations ++ rows) := by
  obtain ⟨herr, hok⟩ := createAttempt_spec sched db name total_amount
    allocation_method counties
  simp only [create_budget_with_allocations]
  cases hca : createAttempt sched ⟨db, db, 0⟩ name total_amount
      allocation_method counties with
  | mk s res =>
    rw [hca] at herr hok
    cases res with
    | error e =>
      refine ⟨?_, by intro b r h; cases h⟩
      intro e2 h
      obtain rfl := (Except.error.injEq _ _).mp h.symm
      exact herr e2 rfl
    | ok br =>
      obtain ⟨bb, rr⟩ := br
      refine ⟨?_, ?_⟩
      · intro e h
        cases h
      intro budget rows h
      have hpair : (bb, rr) = (budget, rows) := (Except.ok.injEq _ _).mp h
      have hb2 : bb = budget := congrArg Prod.fst hpair
      have hr2 : rr = rows := congrArg Prod.snd hpair
      subst hb2
      subst hr2
      exact hok bb rr rfl

/-- Failure schedule of the spec scenario: the third storage write — the
second allocation insert (write 0 is the budget insert, writes 1 and 2 the
allocation inserts) — fails. -/
def secondInsertFails : ℕ → Bool := fun n => n == 2

/-- An empty store for the C8 witness. -/
def emptyStore : Store := ⟨[], [], 1⟩

/-- The two counties of the C8 witness. -/
def twoCounties : List County := [⟨1, "A", 2, 6, 5⟩, ⟨2, "B", 3, 3, 4⟩]

/-- The `equal` summary of budget 100 over `twoCounties`. -/
def twoCountySummary : Summary :=
  ⟨"equal", 100, 100, 0, 2,
    [⟨1, "A", 50, 50, "equal", none, none⟩,
     ⟨2, "B", 50, 50, "equal", none, none⟩]⟩

/-- C8 witness: with a storage failure injected on the second allocation
insert, the attempt errors and the durable store keeps zero budget rows and
zero allocation rows. -/
theorem C8_create_budget_atomic_witness :
    (create_budget_with_allocations secondInsertFails emptyStore "Test" 100
        "equal" twoCounties).2
      = Except.error (Err.persistenceFailure "storage failure") ∧
    (create_budget_with_allocations secondInsertFails emptyStore "Test" 100
        "equal" twoCounties).1 = emptyStore := by
  have hstrip : pyStrip "Test" = "Test" := by decide
  have hlen0 : ¬("Test".length = 0) := by decide
  have hlen200 : ¬("Test".length > 200) := by decide
  have h1 : validate_budget_name "Test" = Except.ok "Test" := by
    simp [validate_budget_name, hstrip, hlen0, hlen200]
  have h2 : validate_budget_amount 100 = Except.ok () := by
    norm_num [validate_budget_amount]
  have h3 : validate_budget_method "equal" = Except.ok () := by
    simp [validate_budget_method]
  have h4 : AllocationCalculator.init 100 twoCounties
      = Except.ok ⟨100, twoCounties⟩ := by
    unfold AllocationCalculator.init
    rw [if_neg (by simp [twoCounties]), if_neg (by norm_num)]
  have h5 : validate_allocation_amount 50 = Except.ok () := by
    norm_num [validate_allocation_amount]
  have hsum : (AllocationCalculator.mk 100 twoCounties).get_allocation_summary
      "equal" = Except.ok twoCountySummary := by
    simp only [AllocationCalculator.get_allocation_summary,
      AllocationCalculator.equal_allocation, Except.map, if_pos rfl,
      twoCounties, twoCountySummary]
    norm_num [round2, round_eq]
  have herr : (create_budget_with_allocations secondInsertFails emptyStore
      "Test" 100 "equal" twoCounties).2
      = Except.error (Err.persistenceFailure "storage failure") := by
    simp only [create_budget_with_allocations, createAttempt, h1, h2, h3, h4,
      hsum, h5, runInserts, Session.insertBudget, Session.insertAllocation,
      Session.commit, secondInsertFails, emptyStore, twoCountySummary]
    norm_num
  exact ⟨herr, (C8_create_budget_atomic secondInsertFails emptyStore "Test"
    100 "equal" twoCounties).1 _ herr⟩

end BudgetAlloc
